import Mathlib

/-!
Verification of the evaluation pipeline of the ai-interview backend
(`src/backend/index.js`): the retry controller `withRetries`, the text
extractor `extractTextFromResponse`, the tolerant parser `safeParseJSON`,
and the `/evaluate` route handler.  JavaScript values and errors are
shallowly embedded; machine behaviour (truthiness, `===` comparison,
optional chaining, the greedy regex) is modelled explicitly.
-/

/-- A primitive JavaScript value usable as an error status/code
(a number or a string). -/
inductive JSVal where
  | vnum : Int → JSVal
  | vstr : String → JSVal
deriving DecidableEq, Repr

/-- JavaScript truthiness of a primitive status value: `0` and `""` are
falsy, everything else truthy. -/
def jsTruthy : JSVal → Bool
  | JSVal.vnum n => n ≠ 0
  | JSVal.vstr s => s ≠ ""

/-- The JavaScript `a || b` on optional primitive values: the left value
if present and truthy, otherwise the right operand (`none` models
`undefined`/`null`). -/
def jsOr (a b : Option JSVal) : Option JSVal :=
  match a with
  | some v => if jsTruthy v then some v else b
  | none => b

/-- An error object as thrown by the GenAI client or by the code itself:
optional `status`, nested `error.code`, top-level `code`, and `message`
fields. -/
structure JSError where
  status : Option JSVal
  errorCode : Option JSVal
  code : Option JSVal
  message : Option String
deriving DecidableEq, Repr

/-- The chain `err?.status || err?.error?.code || err?.code || null` from
`withRetries` (src/backend/index.js line 68). -/
def statusOf (e : JSError) : Option JSVal :=
  jsOr e.status (jsOr e.errorCode (jsOr e.code none))

/-- The retryability test of `withRetries` (line 69):
`status === 429 || status === "RESOURCE_EXHAUSTED" || status === "TOO_MANY_REQUESTS"`. -/
def isRetryable : Option JSVal → Bool
  | some (JSVal.vnum n) => n == 429
  | some (JSVal.vstr s) => s == "RESOURCE_EXHAUSTED" || s == "TOO_MANY_REQUESTS"
  | none => false

/-- Whether one invocation outcome is a failure that `withRetries`
classifies as retryable. -/
def failsRetryably {α : Type} : Except JSError α → Bool
  | Except.error e => isRetryable (statusOf e)
  | Except.ok _ => false

/-- Outcome of a `withRetries` run: the operation's value, or a thrown
error (a re-raised operation error, or the terminal exhaustion error). -/
inductive RetryResult (α : Type) where
  | ok : α → RetryResult α
  | thrown : JSError → RetryResult α
deriving DecidableEq, Repr

/-- Observable trace of a `withRetries` run: its outcome, how many times
the operation was invoked, and the successive waits (delay + jitter) in
milliseconds. -/
structure RetryTrace (α : Type) where
  result : RetryResult α
  calls : Nat
  delays : List Nat
deriving DecidableEq, Repr

/-- The terminal error thrown once the retry budget is exhausted
(line 83): `new Error("Model service overloaded. Retries exhausted.")`. -/
def exhaustedError : JSError :=
  JSError.mk none none none (some "Model service overloaded. Retries exhausted.")

/-- Default option values of `withRetries` (line 61). -/
def defaultRetries : Nat := 4

/-- Default `minDelay` of `withRetries`, in milliseconds. -/
def defaultMinDelay : Nat := 500

/-- Default `maxDelay` of `withRetries`, in milliseconds. -/
def defaultMaxDelay : Nat := 6000

/-- The `while (attempt < retries)` loop of `withRetries`.  `attempt` is
the JavaScript counter (number of retryable failures so far, also the
index of the next invocation); `gas = retries - attempt` counts the
remaining loop iterations.  `fn i` is the outcome of the `i`-th
invocation of the operation; `jitter n` is the value of
`Math.floor(Math.random() * 200)` drawn after the `n`-th failure. -/
def withRetriesGo {α : Type} (fn : Nat → Except JSError α) (jitter : Nat → Nat)
    (minDelay maxDelay : Nat) : Nat → Nat → RetryTrace α
  | _, 0 => RetryTrace.mk (RetryResult.thrown exhaustedError) 0 []
  | attempt, gas + 1 =>
    match fn attempt with
    | Except.ok a => RetryTrace.mk (RetryResult.ok a) 1 []
    | Except.error e =>
      if isRetryable (statusOf e) then
        let attempt1 := attempt + 1
        let delay := min maxDelay (minDelay * 2 ^ (attempt1 - 1))
        let rest := withRetriesGo fn jitter minDelay maxDelay attempt1 gas
        RetryTrace.mk rest.result (rest.calls + 1) ((delay + jitter attempt1) :: rest.delays)
      else
        RetryTrace.mk (RetryResult.thrown e) 1 []

/-- The function `withRetries(fn, opts)` with options
`retries`, `minDelay`, `maxDelay` (src/backend/index.js lines 61–84), with the attempt counter starting
at 0. -/
def withRetries {α : Type} (fn : Nat → Except JSError α) (jitter : Nat → Nat)
    (retries minDelay maxDelay : Nat) : RetryTrace α :=
  withRetriesGo fn jitter minDelay maxDelay 0 retries

/-- A JavaScript/JSON value.  Numbers carry a decimal mantissa and a
power-of-ten exponent (`5` is `jnum 5 0`, `5.5` is `jnum 55 (-1)`), so
parsing stays exact.  `undefined` is represented by `Option.none` at use
sites, the JSON `null` by `jnull`. -/
inductive JValue where
  | jnull : JValue
  | jbool : Bool → JValue
  | jnum : Int → Int → JValue
  | jstr : String → JValue
  | jarr : List JValue → JValue
  | jobj : List (String × JValue) → JValue

/-- JavaScript truthiness of a value: `null`, `false`, `0` and `""` are
falsy; every object and array is truthy. -/
def jtruthy : JValue → Bool
  | JValue.jnull => false
  | JValue.jbool b => b
  | JValue.jnum m _ => m ≠ 0
  | JValue.jstr s => s ≠ ""
  | JValue.jarr _ => true
  | JValue.jobj _ => true

/-- Property lookup on an object's field list; a later duplicate key
overrides an earlier one, as in a JavaScript object. -/
def lookupLast (k : String) : List (String × JValue) → Option JValue
  | [] => none
  | (k1, v) :: rest =>
    match lookupLast k rest with
    | some r => some r
    | none => if k1 = k then some v else none

/-- Property access `v?.k`: access with optional chaining (`none` models
`undefined`, produced also when `v` is not an object). -/
def jGet (v : JValue) (k : String) : Option JValue :=
  match v with
  | JValue.jobj fields => lookupLast k fields
  | _ => none

/-- Index access `v?.[i]` — array element, numeric-string property of
an object, or single character of a string. -/
def jIdx (v : JValue) (i : Nat) : Option JValue :=
  match v with
  | JValue.jarr xs => xs[i]?
  | JValue.jobj fields => lookupLast (toString i) fields
  | JValue.jstr s => (s.toList[i]?).map (fun c => JValue.jstr (String.mk [c]))
  | _ => none

/-- Truthiness of an optional-chaining result (`undefined` is falsy). -/
def optTruthy : Option JValue → Bool
  | some v => jtruthy v
  | none => false

/-- First-truthy-wins choice: the left value if present and truthy,
otherwise the continuation. -/
def orTruthy (o k : Option JValue) : Option JValue :=
  match o with
  | some v => if jtruthy v then some v else k
  | none => k

/-- The probe `response?.candidates?.[0]?.content?.parts?.[0]?.text`
(src/backend/index.js line 91). -/
def candidatesPartsText (r : JValue) : Option JValue :=
  (jGet r "candidates").bind fun c0 =>
  (jIdx c0 0).bind fun c1 =>
  (jGet c1 "content").bind fun c2 =>
  (jGet c2 "parts").bind fun c3 =>
  (jIdx c3 0).bind fun c4 =>
  jGet c4 "text"

/-- The probe `response?.candidates?.[0]?.content?.text` (line 94). -/
def candidatesContentText (r : JValue) : Option JValue :=
  (jGet r "candidates").bind fun c0 =>
  (jIdx c0 0).bind fun c1 =>
  (jGet c1 "content").bind fun c2 =>
  jGet c2 "text"

/-- The probe `response?.output?.[0]?.content?.[0]?.text` (line 97). -/
def outputContentText (r : JValue) : Option JValue :=
  (jGet r "output").bind fun c0 =>
  (jIdx c0 0).bind fun c1 =>
  (jGet c1 "content").bind fun c2 =>
  (jIdx c2 0).bind fun c3 =>
  jGet c3 "text"

/-- The function `extractTextFromResponse` (src/backend/index.js lines 89–106): the
guarded shape probes in source order, then the plain-string case, then
the top-level `text` field, else `null` (`none`). -/
def extractTextFromResponse (r : JValue) : Option JValue :=
  if optTruthy (candidatesPartsText r) then candidatesPartsText r
  else if optTruthy (candidatesContentText r) then candidatesContentText r
  else if optTruthy (outputContentText r) then outputContentText r
  else
    match r with
    | JValue.jstr s => some (JValue.jstr s)
    | _ => if optTruthy (jGet r "text") then jGet r "text" else none

/-- The extractor exactly as claim C5 words it: the five shapes in
priority order, returning the first non-empty (truthy) match — the
plain-string shape included — and `null` when no shape matches. -/
def extractTextClaimed (r : JValue) : Option JValue :=
  orTruthy (candidatesPartsText r) (orTruthy (candidatesContentText r)
    (orTruthy (outputContentText r)
      (orTruthy (match r with | JValue.jstr s => some (JValue.jstr s) | _ => none)
        (orTruthy (jGet r "text") none))))

/-- The amended reading: same priority order with first-truthy-wins,
except that a plain-string response is returned unconditionally, even
when it is the empty string. -/
def extractTextAmended (r : JValue) : Option JValue :=
  orTruthy (candidatesPartsText r) (orTruthy (candidatesContentText r)
    (orTruthy (outputContentText r)
      (match r with
        | JValue.jstr s => some (JValue.jstr s)
        | _ => orTruthy (jGet r "text") none)))

/-- JSON whitespace accepted by `JSON.parse`: space, tab, line feed,
carriage return. -/
def isJsonWs (c : Char) : Bool :=
  c = ' ' || c = '\t' || c = '\n' || c = '\x0d'

/-- Drop leading JSON whitespace. -/
def skipWs : List Char → List Char
  | [] => []
  | c :: cs => if isJsonWs c then skipWs cs else c :: cs

/-- Value of a hexadecimal digit. -/
def hexVal (c : Char) : Option Nat :=
  if '0' ≤ c ∧ c ≤ '9' then some (c.toNat - '0'.toNat)
  else if 'a' ≤ c ∧ c ≤ 'f' then some (c.toNat - 'a'.toNat + 10)
  else if 'A' ≤ c ∧ c ≤ 'F' then some (c.toNat - 'A'.toNat + 10)
  else none

/-- Translation of a single-character JSON escape. -/
def escapeChar : Char → Option Char
  | '"' => some '"'
  | '\\' => some '\\'
  | '/' => some '/'
  | 'b' => some (Char.ofNat 8)
  | 'f' => some (Char.ofNat 12)
  | 'n' => some '\n'
  | 'r' => some (Char.ofNat 13)
  | 't' => some '\t'
  | _ => none

/-- Parse the body of a JSON string after its opening quote, returning
the decoded characters and the remaining input.  Unescaped control
characters are rejected, as by `JSON.parse`. -/
def parseStringBody : List Char → Option (List Char × List Char)
  | [] => none
  | '"' :: rest => some ([], rest)
  | ['\\'] => none
  | '\\' :: 'u' :: h1 :: h2 :: h3 :: h4 :: rest2 =>
    match hexVal h1, hexVal h2, hexVal h3, hexVal h4 with
    | some a, some b, some c, some d =>
      (parseStringBody rest2).map
        (fun p => (Char.ofNat (((a * 16 + b) * 16 + c) * 16 + d) :: p.1, p.2))
    | _, _, _, _ => none
  | '\\' :: c :: rest2 =>
    match escapeChar c with
    | some ec => (parseStringBody rest2).map (fun p => (ec :: p.1, p.2))
    | none => none
  | c :: rest =>
    if c.toNat < 32 then none
    else (parseStringBody rest).map (fun p => (c :: p.1, p.2))

/-- Take a maximal run of decimal digits. -/
def takeDigits : List Char → (List Char × List Char)
  | [] => ([], [])
  | c :: cs =>
    if '0' ≤ c ∧ c ≤ '9' then
      let p := takeDigits cs
      (c :: p.1, p.2)
    else ([], c :: cs)

/-- Numeric value of a digit run. -/
def digitsToNat (ds : List Char) : Nat :=
  ds.foldl (fun acc c => acc * 10 + (c.toNat - '0'.toNat)) 0

/-- Parse a JSON number (`-? (0 | [1-9][0-9]*) (\.[0-9]+)? ([eE][+-]?[0-9]+)?`)
into mantissa and power-of-ten exponent. -/
def parseNumber (cs : List Char) : Option (JValue × List Char) :=
  let sign : Bool × List Char :=
    match cs with
    | '-' :: r => (true, r)
    | _ => (false, cs)
  let ip := takeDigits sign.2
  if ip.1 = [] then none
  else if ip.1.length > 1 ∧ ip.1.head? = some '0' then none
  else
    let frac : Option (List Char × List Char) :=
      match ip.2 with
      | '.' :: r =>
        let fp := takeDigits r
        if fp.1 = [] then none else some fp
      | _ => some ([], ip.2)
    match frac with
    | none => none
    | some fp =>
      let expo : Option (Int × List Char) :=
        match fp.2 with
        | 'e' :: r => parseExpoDigits r
        | 'E' :: r => parseExpoDigits r
        | _ => some (0, fp.2)
      match expo with
      | none => none
      | some ep =>
        let mantissa : Int := Int.ofNat (digitsToNat (ip.1 ++ fp.1))
        let m : Int := if sign.1 then -mantissa else mantissa
        some (JValue.jnum m (ep.1 - Int.ofNat fp.1.length), ep.2)
where
  /-- Parse the signed digit run after `e`/`E`. -/
  parseExpoDigits (r : List Char) : Option (Int × List Char) :=
    let se : Bool × List Char :=
      match r with
      | '+' :: r2 => (false, r2)
      | '-' :: r2 => (true, r2)
      | _ => (false, r)
    let dp := takeDigits se.2
    if dp.1 = [] then none
    else some (if se.1 then -Int.ofNat (digitsToNat dp.1) else Int.ofNat (digitsToNat dp.1), dp.2)

mutual

/-- Parse one JSON value, with fuel bounding recursion depth. -/
def parseVal : Nat → List Char → Option (JValue × List Char)
  | 0, _ => none
  | Nat.succ fuel, cs =>
    match skipWs cs with
    | '\x7b' :: rest => parseObjBody fuel rest
    | '[' :: rest => parseArrBody fuel rest
    | '"' :: rest =>
      (parseStringBody rest).map (fun p => (JValue.jstr (String.mk p.1), p.2))
    | 't' :: 'r' :: 'u' :: 'e' :: rest => some (JValue.jbool true, rest)
    | 'f' :: 'a' :: 'l' :: 's' :: 'e' :: rest => some (JValue.jbool false, rest)
    | 'n' :: 'u' :: 'l' :: 'l' :: rest => some (JValue.jnull, rest)
    | c :: rest =>
      if c = '-' ∨ ('0' ≤ c ∧ c ≤ '9') then parseNumber (c :: rest) else none
    | [] => none

/-- Parse the inside of a JSON object after `{`. -/
def parseObjBody : Nat → List Char → Option (JValue × List Char)
  | 0, _ => none
  | Nat.succ fuel, cs =>
    match skipWs cs with
    | '\x7d' :: rest => some (JValue.jobj [], rest)
    | _ => (parseMembers fuel (skipWs cs)).map (fun p => (JValue.jobj p.1, p.2))

/-- Parse one or more `"key": value` members separated by commas, up to
the closing `}`. -/
def parseMembers : Nat → List Char → Option (List (String × JValue) × List Char)
  | 0, _ => none
  | Nat.succ fuel, cs =>
    match skipWs cs with
    | '"' :: rest =>
      match parseStringBody rest with
      | some (kcs, r1) =>
        match skipWs r1 with
        | ':' :: r2 =>
          match parseVal fuel r2 with
          | some (v, r3) =>
            match skipWs r3 with
            | ',' :: r4 =>
              (parseMembers fuel r4).map (fun p => ((String.mk kcs, v) :: p.1, p.2))
            | '\x7d' :: r4 => some ([(String.mk kcs, v)], r4)
            | _ => none
          | none => none
        | _ => none
      | none => none
    | _ => none

/-- Parse the inside of a JSON array after `[`. -/
def parseArrBody : Nat → List Char → Option (JValue × List Char)
  | 0, _ => none
  | Nat.succ fuel, cs =>
    match skipWs cs with
    | ']' :: rest => some (JValue.jarr [], rest)
    | _ => (parseItems fuel (skipWs cs)).map (fun p => (JValue.jarr p.1, p.2))

/-- Parse one or more array items separated by commas, up to the
closing `]`. -/
def parseItems : Nat → List Char → Option (List JValue × List Char)
  | 0, _ => none
  | Nat.succ fuel, cs =>
    match parseVal fuel cs with
    | some (v, r1) =>
      match skipWs r1 with
      | ',' :: r2 => (parseItems fuel r2).map (fun p => (v :: p.1, p.2))
      | ']' :: r2 => some ([v], r2)
      | _ => none
    | none => none

end

/-- Strict `JSON.parse(s)`: one value, optionally surrounded by whitespace,
with nothing after it.  The fuel `3 * length + 4` exceeds the recursion
depth any input can force. -/
def jsonParse (s : String) : Option JValue :=
  let cs := s.toList
  match parseVal (3 * cs.length + 4) cs with
  | some (v, rest) => if skipWs rest = [] then some v else none
  | none => none

/-- Index of the first occurrence of a character. -/
def firstIdx (c : Char) : List Char → Option Nat
  | [] => none
  | x :: xs =>
    if x = c then some 0 else (firstIdx c xs).map (fun n => n + 1)

/-- Index of the last occurrence of a character. -/
def lastIdx (c : Char) : List Char → Option Nat
  | [] => none
  | x :: xs =>
    match lastIdx c xs with
    | some n => some (n + 1)
    | none => if x = c then some 0 else none

/-- The match of the greedy regular expression `/{[\s\S]*}/` used by
`safeParseJSON` (line 118): the substring from the first `{` to the
last `}` of the text, when the latter comes after the former. -/
def braceBlock (s : String) : Option String :=
  let cs := s.toList
  match firstIdx '\x7b' cs, lastIdx '\x7d' cs with
  | some i, some j =>
    if i < j then some (String.mk ((cs.drop i).take (j - i + 1))) else none
  | _, _ => none

/-- Depth-counting scan for the closing brace matching an already-consumed
opening brace: position of that `}` in the remaining input. -/
def closeMatch : List Char → Nat → Nat → Option Nat
  | [], _, _ => none
  | c :: rest, depth, pos =>
    if c = '\x7b' then closeMatch rest (depth + 1) (pos + 1)
    else if c = '\x7d' then
      if depth = 0 then some pos else closeMatch rest (depth - 1) (pos + 1)
    else closeMatch rest depth (pos + 1)

/-- The fallback candidate as claim C7 words it: the substring starting
at the first `{` and ending at the closing `}` that matches it. -/
def matchedBraceBlock (s : String) : Option String :=
  let cs := s.toList
  match firstIdx '\x7b' cs with
  | none => none
  | some i =>
    match closeMatch (cs.drop (i + 1)) 0 0 with
    | none => none
    | some p => some (String.mk ((cs.drop i).take (p + 2)))

/-- Whether `pat` occurs at the head of `cs`. -/
def leadsWith : List Char → List Char → Bool
  | [], _ => true
  | _ :: _, [] => false
  | a :: as, b :: bs => a = b && leadsWith as bs

/-- Whether `pat` occurs anywhere in `cs` (JavaScript
`String.prototype.includes`). -/
def containsSeq (pat : List Char) : List Char → Bool
  | [] => leadsWith pat []
  | c :: rest => leadsWith pat (c :: rest) || containsSeq pat rest

/-- JavaScript `s.includes(pat)`. -/
def strContains (s pat : String) : Bool :=
  containsSeq pat.toList s.toList

/-- Result of `safeParseJSON`: `{ok: true, data}` or
`{ok: false, error, raw?}`. -/
inductive ParseOutcome where
  | ok : JValue → ParseOutcome
  | fail : String → Option String → ParseOutcome

/-- The function `safeParseJSON(text)` (src/backend/index.js lines 111–129).  The
input is an arbitrary JavaScript value: anything that is not a nonempty
string fails with "No text to parse"; then strict parse, then the greedy
brace block. -/
def safeParseJSON (text : JValue) : ParseOutcome :=
  match text with
  | JValue.jstr s =>
    if s = "" then ParseOutcome.fail "No text to parse" none
    else
      match jsonParse s with
      | some v => ParseOutcome.ok v
      | none =>
        match braceBlock s with
        | some block =>
          match jsonParse block with
          | some v => ParseOutcome.ok v
          | none =>
            ParseOutcome.fail "Found JSON-like block but failed to parse" (some block)
        | none => ParseOutcome.fail "Response is not valid JSON" (some s)
  | _ => ParseOutcome.fail "No text to parse" none

/-- An `/evaluate` request body: each field may be absent (`none`
models `undefined`). -/
structure EvalRequest where
  topic : Option JValue
  question : Option JValue
  answer : Option JValue

/-- The validation test of the `/evaluate` route (line 262):
`!topic || !question || typeof answer === "undefined"`. -/
def missingFields (r : EvalRequest) : Bool :=
  !optTruthy r.topic || !optTruthy r.question || r.answer.isNone

/-- Whether the handler reaches the remote `generateContent` call: in
the source this happens exactly when validation passes. -/
def invokesRemote (r : EvalRequest) : Bool :=
  !missingFields r

/-- The distinct response shapes the `/evaluate` route can produce. -/
inductive EvalResponse where
  | badRequest : EvalResponse
  | success : JValue → EvalResponse
  | parseFailure : String → JValue → EvalResponse
  | extractionFailure : EvalResponse
  | overloaded : EvalResponse
  | serverError : String → EvalResponse

/-- HTTP status code attached to each response shape
(lines 263, 299, 309, 312, 322, 328). -/
def httpStatus : EvalResponse → Nat
  | EvalResponse.badRequest => 400
  | EvalResponse.success _ => 200
  | EvalResponse.parseFailure _ _ => 200
  | EvalResponse.extractionFailure => 502
  | EvalResponse.overloaded => 503
  | EvalResponse.serverError _ => 500

/-- The chain `error?.status || error?.error?.code || error?.message` from the
route's catch block (line 319). -/
def routeCode (e : JSError) : Option JSVal :=
  jsOr e.status (jsOr e.errorCode (e.message.map JSVal.vstr))

/-- The route's overload test (line 321): `code === 429 ||
code === "RESOURCE_EXHAUSTED" || (typeof code === "string" &&
code.includes("overloaded"))`. -/
def isOverloadCode : Option JSVal → Bool
  | some (JSVal.vnum n) => n == 429
  | some (JSVal.vstr s) => s == "RESOURCE_EXHAUSTED" || strContains s "overloaded"
  | none => false

/-- The `/evaluate` route handler (src/backend/index.js lines 258–333),
with the outcome of the `withRetries`-wrapped remote call supplied as a
trace: validation, extraction, tolerant parsing, and the catch-block
classification. -/
def evaluateRoute (r : EvalRequest) (remote : RetryTrace JValue) : EvalResponse :=
  if missingFields r then EvalResponse.badRequest
  else
    match remote.result with
    | RetryResult.ok response =>
      let text := extractTextFromResponse response
      if !optTruthy text then EvalResponse.extractionFailure
      else
        match safeParseJSON (text.getD JValue.jnull) with
        | ParseOutcome.ok v => EvalResponse.success v
        | ParseOutcome.fail err raw =>
          EvalResponse.parseFailure err
            (match raw with
              | some rs => JValue.jstr rs
              | none => text.getD JValue.jnull)
    | RetryResult.thrown e =>
      if isOverloadCode (routeCode e) then EvalResponse.overloaded
      else EvalResponse.serverError (e.message.getD "Server error")

/-- When every remaining invocation fails retryably, the loop runs its
full budget: `gas` further calls, each followed by a backoff wait, and
ends by throwing the exhaustion error. -/
theorem withRetriesGo_all_fail {α : Type} (fn : Nat → Except JSError α)
    (jitter : Nat → Nat) (minDelay maxDelay : Nat) (gas attempt : Nat)
    (h : ∀ i : Nat, attempt ≤ i → i < attempt + gas → failsRetryably (fn i) = true) :
    withRetriesGo fn jitter minDelay maxDelay attempt gas =
      RetryTrace.mk (RetryResult.thrown exhaustedError) gas
        ((List.range gas).map
          (fun t => min maxDelay (minDelay * 2 ^ (attempt + t)) + jitter (attempt + t + 1))) := by
  induction gas generalizing attempt with
  | zero => simp [withRetriesGo]
  | succ g ih =>
    have h0 : failsRetryably (fn attempt) = true := h attempt le_rfl (by omega)
    cases hfn : fn attempt with
    | ok a => rw [hfn] at h0; simp [failsRetryably] at h0
    | error e =>
      rw [hfn] at h0
      simp only [failsRetryably] at h0
      have hrec := ih (attempt + 1) (fun i h1 h2 => h i (by omega) (by omega))
      simp only [withRetriesGo, hfn, h0, if_true, hrec, RetryTrace.mk.injEq]
      refine ⟨trivial, trivial, ?_⟩
      rw [List.range_succ_eq_map, List.map_cons, List.map_map]
      congr 1
      apply List.map_congr_left
      intro t ht
      simp only [Function.comp_apply, Nat.succ_eq_add_one]
      have e1 : attempt + 1 + t = attempt + (t + 1) := by omega
      rw [e1]

/-- Reindexing a map over `List.range`: peeling the first element shifts
the offset. -/
theorem range_succ_shift (f : Nat → Nat) (a m : Nat) :
    (List.range (m + 1)).map (fun t => f (a + t)) =
      f a :: (List.range m).map (fun t => f (a + 1 + t)) := by
  rw [List.range_succ_eq_map, List.map_cons, List.map_map]
  simp only [Nat.add_zero]
  congr 1
  apply List.map_congr_left
  intro t ht
  simp only [Function.comp_apply, Nat.succ_eq_add_one]
  congr 1
  omega

/-- If the first `m` remaining invocations fail retryably, the wait
trace starts with the `m` corresponding backoff delays. -/
theorem withRetriesGo_fail_delays {α : Type} (fn : Nat → Except JSError α)
    (jitter : Nat → Nat) (minDelay maxDelay : Nat) (m : Nat) :
    ∀ gas attempt, m ≤ gas →
      (∀ i : Nat, attempt ≤ i → i < attempt + m → failsRetryably (fn i) = true) →
      ∃ tail, (withRetriesGo fn jitter minDelay maxDelay attempt gas).delays =
        (List.range m).map
          (fun t => min maxDelay (minDelay * 2 ^ (attempt + t)) + jitter (attempt + t + 1))
          ++ tail := by
  induction m with
  | zero =>
    intro gas attempt _ _
    exact ⟨(withRetriesGo fn jitter minDelay maxDelay attempt gas).delays, by simp⟩
  | succ m ih =>
    intro gas attempt hm h
    obtain ⟨g, rfl⟩ : ∃ g, gas = g + 1 := ⟨gas - 1, by omega⟩
    have h0 : failsRetryably (fn attempt) = true := h attempt le_rfl (by omega)
    cases hfn : fn attempt with
    | ok a => rw [hfn] at h0; simp [failsRetryably] at h0
    | error e =>
      rw [hfn] at h0
      simp only [failsRetryably] at h0
      obtain ⟨tail, htail⟩ := ih g (attempt + 1) (by omega)
        (fun i h1 h2 => h i (by omega) (by omega))
      refine ⟨tail, ?_⟩
      simp only [withRetriesGo, hfn, h0, if_true, htail]
      rw [range_succ_shift (fun t => min maxDelay (minDelay * 2 ^ t) + jitter (t + 1)) attempt m]
      simp

/-- C1: if every attempt up to the budget fails with a retryable code
(429, RESOURCE_EXHAUSTED or TOO_MANY_REQUESTS), `withRetries` invokes
the operation exactly `retries` times and throws the terminal
"Model service overloaded. Retries exhausted." error. -/
theorem withRetries_exhaustion {α : Type} (fn : Nat → Except JSError α)
    (jitter : Nat → Nat) (retries minDelay maxDelay : Nat)
    (h : ∀ i : Nat, i < retries → failsRetryably (fn i) = true) :
    (withRetries fn jitter retries minDelay maxDelay).result =
        RetryResult.thrown exhaustedError ∧
      (withRetries fn jitter retries minDelay maxDelay).calls = retries := by
  have hall := withRetriesGo_all_fail fn jitter minDelay maxDelay retries 0
    (fun i _ h2 => h i (by omega))
  rw [withRetries, hall]
  exact ⟨rfl, rfl⟩

/-- Witness for C1: an operation that always fails with HTTP 429 under
the default budget of 4 is invoked 4 times and ends in exhaustion. -/
theorem withRetries_exhaustion_witness :
    (withRetries (fun _ => (Except.error
          (JSError.mk (some (JSVal.vnum 429)) none none none) : Except JSError Nat))
        (fun _ => 0) 4 500 6000).result = RetryResult.thrown exhaustedError ∧
      (withRetries (fun _ => (Except.error
          (JSError.mk (some (JSVal.vnum 429)) none none none) : Except JSError Nat))
        (fun _ => 0) 4 500 6000).calls = 4 :=
  withRetries_exhaustion _ _ 4 500 6000 (fun _ _ => rfl)

/-- C2: a first failure carrying a non-retryable status is re-raised
unchanged after a single invocation, with no delay taken. -/
theorem withRetries_nonretryable_immediate {α : Type} (fn : Nat → Except JSError α)
    (jitter : Nat → Nat) (retries minDelay maxDelay : Nat) (e : JSError)
    (hr : 0 < retries) (hfn : fn 0 = Except.error e)
    (hnr : isRetryable (statusOf e) = false) :
    withRetries fn jitter retries minDelay maxDelay =
      RetryTrace.mk (RetryResult.thrown e) 1 [] := by
  obtain ⟨g, rfl⟩ : ∃ g, retries = g + 1 := ⟨retries - 1, by omega⟩
  rw [withRetries]
  simp [withRetriesGo, hfn, hnr]

/-- Witness for C2: an `INVALID_ARGUMENT` error propagates at once under
the default options. -/
theorem withRetries_nonretryable_immediate_witness :
    withRetries (fun _ => (Except.error
        (JSError.mk (some (JSVal.vstr "INVALID_ARGUMENT")) none none (some "bad request"))
        : Except JSError Nat)) (fun _ => 0) 4 500 6000 =
      RetryTrace.mk (RetryResult.thrown
        (JSError.mk (some (JSVal.vstr "INVALID_ARGUMENT")) none none (some "bad request"))) 1 [] :=
  withRetries_nonretryable_immediate _ _ 4 500 6000 _ (by omega) rfl rfl

/-- If the invocations before index `k` fail retryably and invocation
`k` (still within budget) succeeds, the loop returns that success. -/
theorem withRetriesGo_success {α : Type} (fn : Nat → Except JSError α)
    (jitter : Nat → Nat) (minDelay maxDelay : Nat) (a : α) (k : Nat) :
    ∀ gas attempt, attempt ≤ k → k < attempt + gas →
      (∀ i : Nat, attempt ≤ i → i < k → failsRetryably (fn i) = true) →
      fn k = Except.ok a →
      (withRetriesGo fn jitter minDelay maxDelay attempt gas).result = RetryResult.ok a := by
  intro gas
  induction gas with
  | zero => intro attempt h1 h2 _ _; omega
  | succ g ih =>
    intro attempt h1 h2 hfail hsucc
    rcases Nat.eq_or_lt_of_le h1 with heq | hlt
    · subst heq
      simp [withRetriesGo, hsucc]
    · have h0 : failsRetryably (fn attempt) = true := hfail attempt le_rfl hlt
      cases hfn : fn attempt with
      | ok b => rw [hfn] at h0; simp [failsRetryably] at h0
      | error e =>
        rw [hfn] at h0
        simp only [failsRetryably] at h0
        simp only [withRetriesGo, hfn, h0, if_true]
        exact ih (attempt + 1) (by omega) (by omega)
          (fun i hi1 hi2 => hfail i (by omega) hi2) hsucc

/-- C3: when the operation fails retryably on its first `k` attempts
with `k` below the budget and then succeeds, `withRetries` returns the
value of that first successful invocation. -/
theorem withRetries_eventual_success {α : Type} (fn : Nat → Except JSError α)
    (jitter : Nat → Nat) (retries minDelay maxDelay k : Nat) (a : α)
    (hk : k < retries)
    (hfail : ∀ i : Nat, i < k → failsRetryably (fn i) = true)
    (hsucc : fn k = Except.ok a) :
    (withRetries fn jitter retries minDelay maxDelay).result = RetryResult.ok a :=
  withRetriesGo_success fn jitter minDelay maxDelay a k retries 0
    (by omega) (by omega) (fun i _ hi => hfail i hi) hsucc

/-- Witness for C3: two 429 failures followed by a success return the
successful value 42 under the default budget. -/
theorem withRetries_eventual_success_witness :
    (withRetries
        (fun i => if i < 2 then Except.error (JSError.mk (some (JSVal.vnum 429)) none none none)
          else Except.ok 42)
        (fun _ => 0) 4 500 6000).result = RetryResult.ok 42 :=
  withRetries_eventual_success _ _ 4 500 6000 2 42 (by omega) (by decide) rfl

/-- C4: after the `n`-th consecutive retryable failure (`n ≥ 1`, within
budget, jitter drawn below 200 ms), the wait before the `n`-th retry is
`min maxDelay (minDelay * 2 ^ (n - 1))` plus that jitter; the defaults
are `retries = 4`, `minDelay = 500` ms, `maxDelay = 6000` ms. -/
theorem withRetries_backoff_delay {α : Type} (fn : Nat → Except JSError α)
    (jitter : Nat → Nat) (retries minDelay maxDelay n : Nat)
    (hn : 1 ≤ n) (hnr : n ≤ retries)
    (hfail : ∀ i : Nat, i < n → failsRetryably (fn i) = true)
    (hjit : jitter n < 200) :
    ((withRetries fn jitter retries minDelay maxDelay).delays[n - 1]? =
        some (min maxDelay (minDelay * 2 ^ (n - 1)) + jitter n) ∧ jitter n < 200) ∧
      defaultRetries = 4 ∧ defaultMinDelay = 500 ∧ defaultMaxDelay = 6000 := by
  obtain ⟨tail, htail⟩ := withRetriesGo_fail_delays fn jitter minDelay maxDelay n retries 0
    hnr (fun i _ h2 => hfail i (by omega))
  rw [withRetries] at *
  rw [htail]
  refine ⟨⟨?_, hjit⟩, rfl, rfl, rfl⟩
  rw [List.getElem?_append_left (by simp; omega)]
  rw [List.getElem?_map]
  have hr : (List.range n)[n - 1]? = some (n - 1) := by
    simp [List.getElem?_range, Nat.sub_lt (by omega : 0 < n) Nat.one_pos]
  rw [hr]
  have hx : n - 1 + 1 = n := by omega
  simp [hx]

/-- A truthiness-guarded `if` is exactly the first-truthy-wins choice. -/
theorem ite_optTruthy_eq_orTruthy (o k : Option JValue) :
    (if optTruthy o then o else k) = orTruthy o k := by
  cases o with
  | none => rfl
  | some v => cases hv : jtruthy v <;> simp [optTruthy, orTruthy, hv]

/-- The source extractor is the first-truthy-wins chain with the
plain-string shape unguarded. -/
theorem extractText_eq_amended (r : JValue) :
    extractTextFromResponse r = extractTextAmended r := by
  unfold extractTextFromResponse extractTextAmended
  rw [ite_optTruthy_eq_orTruthy, ite_optTruthy_eq_orTruthy, ite_optTruthy_eq_orTruthy]
  cases r <;> simp only [ite_optTruthy_eq_orTruthy]

/-- C5 counterexample: applied to the plain empty string, the extractor
returns the empty string itself even though the empty string is not a
non-empty match, where the claim requires `null`. -/
theorem extractText_empty_string_counterexample :
    extractTextFromResponse (JValue.jstr "") = some (JValue.jstr "") ∧
      extractTextClaimed (JValue.jstr "") = none ∧
      jtruthy (JValue.jstr "") = false ∧
      extractTextFromResponse (JValue.jstr "") ≠ extractTextClaimed (JValue.jstr "") := by
  refine ⟨rfl, rfl, rfl, ?_⟩
  intro h
  have : (some (JValue.jstr "") : Option JValue) = none := h
  exact Option.noConfusion this

/-- C5 (amended): the extractor tries
`candidates[0].content.parts[0].text`, `candidates[0].content.text`,
`output[0].content[0].text`, the response itself if a plain string, then
a top-level `text` field, in that order, first truthy match wins and
`null` otherwise — with the plain-string shape returned even when empty.
On every non-string response it agrees with the claimed
first-non-empty-match reading, and the three spec examples hold. -/
theorem extractText_priority_amended :
    (∀ r : JValue, extractTextFromResponse r = extractTextAmended r) ∧
      (∀ r : JValue, (∀ s : String, r ≠ JValue.jstr s) →
        extractTextFromResponse r = extractTextClaimed r) ∧
      extractTextFromResponse (JValue.jobj [("candidates", JValue.jarr [JValue.jobj
          [("content", JValue.jobj [("parts", JValue.jarr [JValue.jobj
            [("text", JValue.jstr "X")]])])]])]) = some (JValue.jstr "X") ∧
      extractTextFromResponse (JValue.jobj []) = none ∧
      extractTextFromResponse (JValue.jstr "X") = some (JValue.jstr "X") := by
  refine ⟨extractText_eq_amended, ?_, rfl, rfl, rfl⟩
  intro r hr
  rw [extractText_eq_amended]
  unfold extractTextAmended extractTextClaimed
  cases r with
  | jstr s => exact absurd rfl (hr s)
  | jnull => rfl
  | jbool b => rfl
  | jnum m e => rfl
  | jarr xs => rfl
  | jobj fields => rfl

/-- Witness for C5's amended theorem: its non-string clause applied to
the empty object. -/
theorem extractText_priority_amended_witness :
    extractTextFromResponse (JValue.jobj []) = extractTextClaimed (JValue.jobj []) :=
  extractText_priority_amended.2.1 (JValue.jobj [])
    (fun _ h => JValue.noConfusion h)

/-- Witness for C4: with an always-429 operation, default options and a
jitter draw of 123, the wait before the third retry is
`min 6000 (500 * 2^2) + 123`. -/
theorem withRetries_backoff_delay_witness :
    ((withRetries (fun _ => (Except.error
            (JSError.mk (some (JSVal.vnum 429)) none none none) : Except JSError Nat))
          (fun _ => 123) 4 500 6000).delays[2]? =
        some (min 6000 (500 * 2 ^ 2) + 123) ∧ (123 : Nat) < 200) ∧
      defaultRetries = 4 ∧ defaultMinDelay = 500 ∧ defaultMaxDelay = 6000 :=
  withRetries_backoff_delay _ _ 4 500 6000 3 (by omega) (by omega)
    (fun _ _ => rfl) (by omega)

/-- C6: `safeParseJSON` is total with the claimed case analysis: a
non-string or empty input fails with "No text to parse"; a string that
strict-parses yields the parsed value; otherwise the greedy brace block
is parsed if present, its failure reported with the raw block; with no
brace block the whole text is reported as not valid JSON.  The two spec
examples hold (reason strings as in the source, capitalised). -/
theorem safeParseJSON_case_analysis :
    (∀ v : JValue, (∀ s : String, v ≠ JValue.jstr s) →
        safeParseJSON v = ParseOutcome.fail "No text to parse" none) ∧
      safeParseJSON (JValue.jstr "") = ParseOutcome.fail "No text to parse" none ∧
      (∀ (s : String) (v : JValue), jsonParse s = some v →
        safeParseJSON (JValue.jstr s) = ParseOutcome.ok v) ∧
      (∀ s b : String, jsonParse s = none → braceBlock s = some b →
        safeParseJSON (JValue.jstr s) =
          (match jsonParse b with
            | some v => ParseOutcome.ok v
            | none =>
              ParseOutcome.fail "Found JSON-like block but failed to parse" (some b))) ∧
      (∀ s : String, s ≠ "" → jsonParse s = none → braceBlock s = none →
        safeParseJSON (JValue.jstr s) =
          ParseOutcome.fail "Response is not valid JSON" (some s)) ∧
      safeParseJSON
          (JValue.jstr "Here is the answer: \x7b\"score\":5,\"feedback\":\"fine\"\x7d Thanks!") =
        ParseOutcome.ok
          (JValue.jobj [("score", JValue.jnum 5 0), ("feedback", JValue.jstr "fine")]) ∧
      safeParseJSON (JValue.jstr "no json here") =
        ParseOutcome.fail "Response is not valid JSON" (some "no json here") := by
  refine ⟨?_, rfl, ?_, ?_, ?_, rfl, rfl⟩
  · intro v hv
    cases v with
    | jstr s => exact absurd rfl (hv s)
    | jnull => rfl
    | jbool b => rfl
    | jnum m e => rfl
    | jarr xs => rfl
    | jobj fields => rfl
  · intro s v h
    by_cases hs : s = ""
    · subst hs
      rw [show jsonParse "" = none from rfl] at h
      cases h
    · simp [safeParseJSON, hs, h]
  · intro s b h1 h2
    have hs : s ≠ "" := by
      intro he
      subst he
      rw [show braceBlock "" = none from rfl] at h2
      cases h2
    simp [safeParseJSON, hs, h1, h2]
  · intro s hs h1 h2
    simp [safeParseJSON, hs, h1, h2]

/-- Witness for C6: the strict-parse clause applied to a small concrete
JSON object. -/
theorem safeParseJSON_case_analysis_witness :
    safeParseJSON (JValue.jstr "\x7b\"a\":1\x7d") =
      ParseOutcome.ok (JValue.jobj [("a", JValue.jnum 1 0)]) :=
  safeParseJSON_case_analysis.2.2.1 "\x7b\"a\":1\x7d"
    (JValue.jobj [("a", JValue.jnum 1 0)]) rfl

/-- C7 counterexample: on `x {"a":1} y }` the matching-brace block
`{"a":1}` parses, yet `safeParseJSON` fails, because the regex
`/{[\s\S]*}/` greedily grabs up to the *last* `}` (`{"a":1} y }`),
which is not JSON. -/
theorem braceBlock_matching_counterexample :
    matchedBraceBlock "x \x7b\"a\":1\x7d y \x7d" = some "\x7b\"a\":1\x7d" ∧
      jsonParse "\x7b\"a\":1\x7d" = some (JValue.jobj [("a", JValue.jnum 1 0)]) ∧
      braceBlock "x \x7b\"a\":1\x7d y \x7d" = some "\x7b\"a\":1\x7d y \x7d" ∧
      safeParseJSON (JValue.jstr "x \x7b\"a\":1\x7d y \x7d") =
        ParseOutcome.fail "Found JSON-like block but failed to parse"
          (some "\x7b\"a\":1\x7d y \x7d") :=
  ⟨rfl, rfl, rfl, rfl⟩

/-- C7 (amended): the fallback candidate is the greedy block from the
first `{` to the last `}` of the text; whenever strict parsing fails and
that block parses as JSON, `safeParseJSON` returns its value. -/
theorem safeParseJSON_greedy_block (s b : String) (v : JValue)
    (h1 : jsonParse s = none) (h2 : braceBlock s = some b)
    (h3 : jsonParse b = some v) :
    safeParseJSON (JValue.jstr s) = ParseOutcome.ok v := by
  have hs : s ≠ "" := by
    intro he
    subst he
    rw [show braceBlock "" = none from rfl] at h2
    cases h2
  simp [safeParseJSON, hs, h1, h2, h3]

/-- Witness for C7's amended theorem: a JSON object wrapped in prose
with no stray braces. -/
theorem safeParseJSON_greedy_block_witness :
    safeParseJSON (JValue.jstr "Result: \x7b\"ok\":true\x7d!") =
      ParseOutcome.ok (JValue.jobj [("ok", JValue.jbool true)]) :=
  safeParseJSON_greedy_block "Result: \x7b\"ok\":true\x7d!" "\x7b\"ok\":true\x7d"
    (JValue.jobj [("ok", JValue.jbool true)]) rfl rfl rfl

/-- C8 counterexample: a request whose `answer` is the empty string is
not rejected — validation passes, the remote call is reached, and with a
successful remote outcome the route responds with a success evaluation,
where the claim requires an HTTP 400 with no remote call. -/
theorem evaluate_empty_answer_counterexample :
    missingFields (EvalRequest.mk (some (JValue.jstr "Java"))
        (some (JValue.jstr "What is OOP?")) (some (JValue.jstr ""))) = false ∧
      invokesRemote (EvalRequest.mk (some (JValue.jstr "Java"))
        (some (JValue.jstr "What is OOP?")) (some (JValue.jstr ""))) = true ∧
      evaluateRoute (EvalRequest.mk (some (JValue.jstr "Java"))
          (some (JValue.jstr "What is OOP?")) (some (JValue.jstr "")))
          (RetryTrace.mk (RetryResult.ok (JValue.jstr "\x7b\"score\":7\x7d")) 1 []) =
        EvalResponse.success (JValue.jobj [("score", JValue.jnum 7 0)]) :=
  ⟨rfl, rfl, rfl⟩

/-- C8 (amended): the route rejects with HTTP 400, before any remote
call, exactly the requests whose `topic` or `question` is falsy (absent,
empty, zero, or null) or whose `answer` is undefined; an empty-string
answer passes validation. -/
theorem evaluate_validation_amended :
    (∀ r : EvalRequest, missingFields r = true ↔
        (optTruthy r.topic = false ∨ optTruthy r.question = false ∨ r.answer = none)) ∧
      (∀ (r : EvalRequest) (remote : RetryTrace JValue), missingFields r = true →
        evaluateRoute r remote = EvalResponse.badRequest ∧
          httpStatus EvalResponse.badRequest = 400 ∧ invokesRemote r = false) := by
  constructor
  · intro r
    simp [missingFields, Option.isNone_iff_eq_none, or_assoc]
  · intro r remote h
    refine ⟨?_, rfl, ?_⟩
    · simp [evaluateRoute, h]
    · simp [invokesRemote, h]

/-- Witness for C8's amended theorem: a request with an undefined topic
is rejected with HTTP 400 and never reaches the remote call. -/
theorem evaluate_validation_amended_witness :
    evaluateRoute (EvalRequest.mk none (some (JValue.jstr "Q")) (some (JValue.jstr "A")))
        (RetryTrace.mk (RetryResult.ok JValue.jnull) 1 []) = EvalResponse.badRequest ∧
      httpStatus EvalResponse.badRequest = 400 ∧
      invokesRemote (EvalRequest.mk none (some (JValue.jstr "Q"))
        (some (JValue.jstr "A"))) = false :=
  evaluate_validation_amended.2
    (EvalRequest.mk none (some (JValue.jstr "Q")) (some (JValue.jstr "A")))
    (RetryTrace.mk (RetryResult.ok JValue.jnull) 1 []) rfl

/-- C9: for a validated request, the route maps every remote outcome to
exactly one fixed response shape: parsed evaluation → HTTP 200 success;
tolerant-parse failure → HTTP 200 carrying the reason and the raw text;
null extraction → HTTP 502; a thrown error whose code chain is 429,
RESOURCE_EXHAUSTED, or a string containing "overloaded" — the retry
exhaustion error included — → HTTP 503; any other thrown error →
HTTP 500 with the error message. -/
theorem evaluate_response_mapping :
    (∀ (r : EvalRequest) (tr : RetryTrace JValue) (resp txt v : JValue),
        missingFields r = false → tr.result = RetryResult.ok resp →
        extractTextFromResponse resp = some txt → jtruthy txt = true →
        safeParseJSON txt = ParseOutcome.ok v →
        evaluateRoute r tr = EvalResponse.success v ∧
          httpStatus (EvalResponse.success v) = 200) ∧
      (∀ (r : EvalRequest) (tr : RetryTrace JValue) (resp txt : JValue)
          (err : String) (raw : Option String),
        missingFields r = false → tr.result = RetryResult.ok resp →
        extractTextFromResponse resp = some txt → jtruthy txt = true →
        safeParseJSON txt = ParseOutcome.fail err raw →
        evaluateRoute r tr =
            EvalResponse.parseFailure err
              (match raw with | some rs => JValue.jstr rs | none => txt) ∧
          httpStatus (EvalResponse.parseFailure err
            (match raw with | some rs => JValue.jstr rs | none => txt)) = 200) ∧
      (∀ (r : EvalRequest) (tr : RetryTrace JValue) (resp : JValue),
        missingFields r = false → tr.result = RetryResult.ok resp →
        extractTextFromResponse resp = none →
        evaluateRoute r tr = EvalResponse.extractionFailure ∧
          httpStatus EvalResponse.extractionFailure = 502) ∧
      (∀ (r : EvalRequest) (tr : RetryTrace JValue) (e : JSError),
        missingFields r = false → tr.result = RetryResult.thrown e →
        isOverloadCode (routeCode e) = true →
        evaluateRoute r tr = EvalResponse.overloaded ∧
          httpStatus EvalResponse.overloaded = 503) ∧
      (∀ (r : EvalRequest) (tr : RetryTrace JValue),
        missingFields r = false → tr.result = RetryResult.thrown exhaustedError →
        evaluateRoute r tr = EvalResponse.overloaded) ∧
      (∀ (r : EvalRequest) (tr : RetryTrace JValue) (e : JSError),
        missingFields r = false → tr.result = RetryResult.thrown e →
        isOverloadCode (routeCode e) = false →
        evaluateRoute r tr = EvalResponse.serverError (e.message.getD "Server error") ∧
          httpStatus (EvalResponse.serverError (e.message.getD "Server error")) = 500) := by
  refine ⟨?_, ?_, ?_, ?_, ?_, ?_⟩
  · intro r tr resp txt v h1 h2 h3 h4 h5
    refine ⟨?_, rfl⟩
    simp [evaluateRoute, h1, h2, h3, h4, h5, optTruthy]
  · intro r tr resp txt err raw h1 h2 h3 h4 h5
    refine ⟨?_, rfl⟩
    simp [evaluateRoute, h1, h2, h3, h4, h5, optTruthy]
  · intro r tr resp h1 h2 h3
    refine ⟨?_, rfl⟩
    simp [evaluateRoute, h1, h2, h3, optTruthy]
  · intro r tr e h1 h2 h3
    refine ⟨?_, rfl⟩
    simp [evaluateRoute, h1, h2, h3]
  · intro r tr h1 h2
    have hov : isOverloadCode (routeCode exhaustedError) = true := rfl
    simp [evaluateRoute, h1, h2, hov]
  · intro r tr e h1 h2 h3
    refine ⟨?_, rfl⟩
    simp [evaluateRoute, h1, h2, h3]

/-- Witness for C9: a thrown 429 on a validated request yields the
HTTP 503 overload response. -/
theorem evaluate_response_mapping_witness :
    evaluateRoute (EvalRequest.mk (some (JValue.jstr "Java"))
        (some (JValue.jstr "Q")) (some (JValue.jstr "A")))
        (RetryTrace.mk (RetryResult.thrown
          (JSError.mk (some (JSVal.vnum 429)) none none none)) 1 []) =
        EvalResponse.overloaded ∧
      httpStatus EvalResponse.overloaded = 503 :=
  evaluate_response_mapping.2.2.2.1
    (EvalRequest.mk (some (JValue.jstr "Java")) (some (JValue.jstr "Q"))
      (some (JValue.jstr "A")))
    (RetryTrace.mk (RetryResult.thrown
      (JSError.mk (some (JSVal.vnum 429)) none none none)) 1 [])
    (JSError.mk (some (JSVal.vnum 429)) none none none) rfl rfl rfl

/-- C10: validation is asymmetric — `topic` and `question` are rejected
whenever falsy (empty string, 0, null, or absent all trigger the 400),
while `answer` is rejected only when absent (undefined): an empty-string,
null, or zero answer passes validation and the remote call proceeds. -/
theorem evaluate_validation_asymmetry :
    missingFields (EvalRequest.mk (some (JValue.jstr ""))
        (some (JValue.jstr "Q")) (some (JValue.jstr "A"))) = true ∧
      missingFields (EvalRequest.mk (some (JValue.jnum 0 0))
        (some (JValue.jstr "Q")) (some (JValue.jstr "A"))) = true ∧
      missingFields (EvalRequest.mk (some JValue.jnull)
        (some (JValue.jstr "Q")) (some (JValue.jstr "A"))) = true ∧
      missingFields (EvalRequest.mk none
        (some (JValue.jstr "Q")) (some (JValue.jstr "A"))) = true ∧
      missingFields (EvalRequest.mk (some (JValue.jstr "Java"))
        (some (JValue.jstr "")) (some (JValue.jstr "A"))) = true ∧
      missingFields (EvalRequest.mk (some (JValue.jstr "Java"))
        (some (JValue.jstr "Q")) (some (JValue.jstr ""))) = false ∧
      missingFields (EvalRequest.mk (some (JValue.jstr "Java"))
        (some (JValue.jstr "Q")) (some JValue.jnull)) = false ∧
      missingFields (EvalRequest.mk (some (JValue.jstr "Java"))
        (some (JValue.jstr "Q")) (some (JValue.jnum 0 0))) = false ∧
      missingFields (EvalRequest.mk (some (JValue.jstr "Java"))
        (some (JValue.jstr "Q")) none) = true ∧
      invokesRemote (EvalRequest.mk (some (JValue.jstr "Java"))
        (some (JValue.jstr "Q")) (some (JValue.jstr ""))) = true :=
  ⟨rfl, rfl, rfl, rfl, rfl, rfl, rfl, rfl, rfl, rfl⟩
